import Mathlib

/-!
Verification development for the tk_tools widget library
(`src/tk_tools/widgets.py`).

The file shallowly embeds the library's logic:

* Python arbitrary-precision integers are `Int`; their two's-complement
  bitwise operators are `intAnd`, `intOr`, `intXor`, `intNot` below.
* A Python expression that can raise an exception is modelled with
  `Option`: `none` means the call raised.  The only raising expression in
  `BinaryLabel` is `1 << position`, which raises `ValueError` when
  `position` is negative (`pyShl`).
* Strings are manipulated as `List Char` internally and converted to
  `String` at the widget boundary.
* Calls to `logger.warning` are modelled as an explicit list of emitted
  message strings returned next to the new state.
* The tkinter `Label` text option is the `text` field of the state.
-/

namespace TkTools

/-- Fuel-driven core of the binary rendering: repeatedly divide by two,
accumulating digit characters most-significant first.  Structural in the
fuel so the kernel can evaluate it.  `natBin n` calls it with fuel `n`,
which is enough because a positive `n` has at most `n` binary digits. -/
def natBinCore : Nat → Nat → List Char → List Char
  | 0, _, acc => acc
  | fuel + 1, n, acc =>
    if n = 0 then acc
    else natBinCore fuel (n / 2) ((if n % 2 = 1 then '1' else '0') :: acc)

/-- Binary digit string of a natural number, most significant digit first;
`natBin 0 = ['0']`.  This is the digit part of Python `bin(n)` for
`n ≥ 0`. -/
def natBin (n : Nat) : List Char :=
  if n = 0 then ['0'] else natBinCore n n []

/-- Python `bin(v)` as a character list: `"0b"` followed by the binary
digits of `|v|`, with a leading `'-'` when `v < 0`. -/
def pyBinList (v : Int) : List Char :=
  if v < 0 then '-' :: '0' :: 'b' :: natBin v.natAbs
  else '0' :: 'b' :: natBin v.natAbs

/-- Python slicing `s[i:]` for an arbitrary integer `i`: a negative `i`
counts from the end (clamped at the start), a non-negative `i` drops `i`
characters (clamped at the end). -/
def pySliceFrom (l : List Char) (i : Int) : List Char :=
  if i < 0 then l.drop (l.length - i.natAbs) else l.drop i.toNat

/-- Python `str.zfill(w)`: left-pad with `'0'` to total length `w`; if the
string starts with a sign character the padding is inserted after it. -/
def pyZfill (l : List Char) (w : Int) : List Char :=
  let pad := List.replicate (w.toNat - l.length) '0'
  match l with
  | [] => pad
  | c :: rest => if c = '+' ∨ c = '-' then c :: (pad ++ rest) else pad ++ (c :: rest)

/-- `a AND (NOT b)` on naturals, used for the mixed-sign cases of the
two's-complement operators; `x && !y` equals `x XOR (x AND y)`
bitwise. -/
def natLdiff (a b : Nat) : Nat := a ^^^ (a &&& b)

/-- Python `~v` on arbitrary-precision integers: `~v = -v - 1`. -/
def intNot : Int → Int
  | Int.ofNat n => Int.negSucc n
  | Int.negSucc n => Int.ofNat n

/-- Python `v & w` under two's complement, by sign cases
(`Int.negSucc a` is `NOT a`, and `NOT a AND NOT b = NOT (a OR b)`). -/
def intAnd : Int → Int → Int
  | Int.ofNat a, Int.ofNat b => Int.ofNat (a &&& b)
  | Int.ofNat a, Int.negSucc b => Int.ofNat (natLdiff a b)
  | Int.negSucc a, Int.ofNat b => Int.ofNat (natLdiff b a)
  | Int.negSucc a, Int.negSucc b => Int.negSucc (a ||| b)

/-- Python `v | w` under two's complement
(`a OR NOT b = NOT (b AND NOT a)`, `NOT a OR NOT b = NOT (a AND b)`). -/
def intOr : Int → Int → Int
  | Int.ofNat a, Int.ofNat b => Int.ofNat (a ||| b)
  | Int.ofNat a, Int.negSucc b => Int.negSucc (natLdiff b a)
  | Int.negSucc a, Int.ofNat b => Int.negSucc (natLdiff a b)
  | Int.negSucc a, Int.negSucc b => Int.negSucc (a &&& b)

/-- Python `v ^ w` under two's complement
(`a XOR NOT b = NOT (a XOR b)`, `NOT a XOR NOT b = a XOR b`). -/
def intXor : Int → Int → Int
  | Int.ofNat a, Int.ofNat b => Int.ofNat (a ^^^ b)
  | Int.ofNat a, Int.negSucc b => Int.negSucc (a ^^^ b)
  | Int.negSucc a, Int.ofNat b => Int.negSucc (a ^^^ b)
  | Int.negSucc a, Int.negSucc b => Int.ofNat (a ^^^ b)

/-- Python `a << b`: raises `ValueError` (modelled as `none`) when the
shift count `b` is negative, otherwise multiplies by `2 ^ b`. -/
def pyShl (a b : Int) : Option Int :=
  if b < 0 then none else some (a * 2 ^ b.toNat)

/-- A Python value as returned by the `BinaryLabel` methods: either
`None` (a method body with no `return`) or an integer. -/
inductive PyVal where
  | pyNone : PyVal
  | pyInt : Int → PyVal
  deriving DecidableEq, Repr

/-- State of a `BinaryLabel` widget (`widgets.py` lines 193-235).
`className` is Python's `type(self).__name__`, which appears in the
truncation warning text; `pfx` is the `_prefix` attribute (`prefix` is a
reserved word in Lean); `text` is the tkinter label text option. -/
structure BinaryLabel where
  className : String
  value : Int
  pfx : String
  bit_width : Int
  truncation_warning : Bool
  text : String
  deriving DecidableEq, Repr

/-- The constant part of the truncation warning message (the two adjacent
string literals of `_check_width` concatenated). -/
def warnSuffix : String :=
  ": Displayed value is truncated on left side due to insufficient bit width."

namespace BinaryLabel

/-- `_check_width` (lines 205-210): the list of warning messages the call
emits (one message, or none). -/
def check_width (st : BinaryLabel) : List String :=
  if st.truncation_warning ∧ st.bit_width < ((pySliceFrom (pyBinList st.value) 2).length : Int)
  then [st.className ++ warnSuffix]
  else []

/-- The character list computed by `_text_update` after the prefix:
`str(bin(value))[2:].zfill(bit_width)[-bit_width:]`. -/
def codeTextList (bw : Int) (v : Int) : List Char :=
  pySliceFrom (pyZfill (pySliceFrom (pyBinList v) 2) bw) (-bw)

/-- `_text_update` (lines 232-235): recompute the displayed text as
`self._prefix + str(bin(self._value))[2:].zfill(self._bit_width)[-self._bit_width:]`. -/
def text_update (st : BinaryLabel) : BinaryLabel :=
  { st with text := st.pfx ++ String.mk (codeTextList st.bit_width st.value) }

/-- `__init__` (lines 193-203): store the attributes, run `_check_width`,
then `_text_update`.  Returns the constructed state and the warnings
emitted during construction.  `className` is the dynamic class name
(`"BinaryLabel"` or `"ByteLabel"`). -/
def construct (className : String) (value : Int) (pfx : String) (bit_width : Int)
    (truncation_warning : Bool) : BinaryLabel × List String :=
  let st : BinaryLabel :=
    { className := className, value := value, pfx := pfx, bit_width := bit_width,
      truncation_warning := truncation_warning, text := "" }
  (text_update st, check_width st)

/-- `get` (lines 212-218): return the current integer value. -/
def get (st : BinaryLabel) : Int := st.value

/-- `set` (lines 220-230): overwrite the value, run `_check_width`, then
`_text_update`.  Returns the new state and the warnings emitted. -/
def set (st : BinaryLabel) (value : Int) : BinaryLabel × List String :=
  let st1 : BinaryLabel := { st with value := value }
  (text_update st1, check_width st1)

/-- `get_bit` (lines 237-245): `return self._value & (1 << position)`;
raises (`none`) when the shift raises. -/
def get_bit (st : BinaryLabel) (position : Int) : Option PyVal :=
  (pyShl 1 position).map (fun m => PyVal.pyInt (intAnd st.value m))

/-- `toggle_bit` (lines 247-256): `self._value ^= (1 << position)` then
`_text_update`; raises (`none`) when the shift raises. -/
def toggle_bit (st : BinaryLabel) (position : Int) : Option BinaryLabel :=
  (pyShl 1 position).map (fun m => text_update { st with value := intXor st.value m })

/-- `set_bit` (lines 258-267): `self._value |= (1 << position)` then
`_text_update`. -/
def set_bit (st : BinaryLabel) (position : Int) : Option BinaryLabel :=
  (pyShl 1 position).map (fun m => text_update { st with value := intOr st.value m })

/-- `clear_bit` (lines 269-278): `self._value &= ~(1 << position)` then
`_text_update`. -/
def clear_bit (st : BinaryLabel) (position : Int) : Option BinaryLabel :=
  (pyShl 1 position).map (fun m => text_update { st with value := intAnd st.value (intNot m) })

/-- `get_msb` (lines 280-281): calls `get_bit(bit_width - 1)` but has no
`return` statement, so a successful call returns `None`; an exception
from `get_bit` propagates. -/
def get_msb (st : BinaryLabel) : Option PyVal :=
  (st.get_bit (st.bit_width - 1)).map (fun _ => PyVal.pyNone)

/-- `toggle_msb` (lines 283-284). -/
def toggle_msb (st : BinaryLabel) : Option BinaryLabel :=
  st.toggle_bit (st.bit_width - 1)

/-- `get_lsb` (lines 286-287): like `get_msb`, discards the bit value and
returns `None`. -/
def get_lsb (st : BinaryLabel) : Option PyVal :=
  (st.get_bit 0).map (fun _ => PyVal.pyNone)

/-- `set_msb` (lines 289-290). -/
def set_msb (st : BinaryLabel) : Option BinaryLabel :=
  st.set_bit (st.bit_width - 1)

/-- `clear_msb` (lines 292-293). -/
def clear_msb (st : BinaryLabel) : Option BinaryLabel :=
  st.clear_bit (st.bit_width - 1)

/-- `toggle_lsb` (lines 295-296). -/
def toggle_lsb (st : BinaryLabel) : Option BinaryLabel :=
  st.toggle_bit 0

/-- `set_lsb` (lines 298-299). -/
def set_lsb (st : BinaryLabel) : Option BinaryLabel :=
  st.set_bit 0

/-- `clear_lsb` (lines 301-302). -/
def clear_lsb (st : BinaryLabel) : Option BinaryLabel :=
  st.clear_bit 0

end BinaryLabel

/-- One user-visible mutating or reading operation on a `BinaryLabel`. -/
inductive Op where
  | opSet (v : Int)
  | opGetBit (p : Int)
  | opToggleBit (p : Int)
  | opSetBit (p : Int)
  | opClearBit (p : Int)
  | opGetMsb | opToggleMsb | opGetLsb | opSetMsb | opClearMsb
  | opToggleLsb | opSetLsb | opClearLsb
  deriving DecidableEq, Repr

/-- Run one operation: result state plus the warnings it emitted, or
`none` if the operation raised.  `get`/`get_bit` style operations leave
the state unchanged; only `set` can emit warnings. -/
def step (st : BinaryLabel) : Op → Option (BinaryLabel × List String)
  | Op.opSet v => some (st.set v)
  | Op.opGetBit p => (st.get_bit p).map (fun _ => (st, []))
  | Op.opToggleBit p => (st.toggle_bit p).map (fun s => (s, []))
  | Op.opSetBit p => (st.set_bit p).map (fun s => (s, []))
  | Op.opClearBit p => (st.clear_bit p).map (fun s => (s, []))
  | Op.opGetMsb => (st.get_msb).map (fun _ => (st, []))
  | Op.opToggleMsb => (st.toggle_msb).map (fun s => (s, []))
  | Op.opGetLsb => (st.get_lsb).map (fun _ => (st, []))
  | Op.opSetMsb => (st.set_msb).map (fun s => (s, []))
  | Op.opClearMsb => (st.clear_msb).map (fun s => (s, []))
  | Op.opToggleLsb => (st.toggle_lsb).map (fun s => (s, []))
  | Op.opSetLsb => (st.set_lsb).map (fun s => (s, []))
  | Op.opClearLsb => (st.clear_lsb).map (fun s => (s, []))

/-- Run a list of operations in order, stopping at the first raised
exception; warnings are discarded (they do not affect the state). -/
def runOps (st : BinaryLabel) : List Op → Option BinaryLabel
  | [] => some st
  | op :: rest =>
    match step st op with
    | none => none
    | some (st1, _) => runOps st1 rest

/-- Spec-side rendering (second definition, following the words of the
specification): the binary digit string of the value, left-padded with
`'0'` to at least `bit_width` characters, then truncated to the
rightmost `bit_width` characters, all after the prefix. -/
def specTruncList (bw : Nat) (v : Nat) : List Char :=
  let padded := List.replicate (bw - (natBin v).length) '0' ++ natBin v
  padded.drop (padded.length - bw)

/-- Spec-side rendered text: `prefix ++ specTruncList`. -/
def specRender (pfx : String) (bw : Nat) (v : Nat) : String :=
  pfx ++ String.mk (specTruncList bw v)

/-- A state whose displayed text is the one `_text_update` computes from
its current fields.  Every state reached through the widget's methods
satisfies this. -/
def rendered (st : BinaryLabel) : Prop :=
  st.text = st.pfx ++ String.mk (BinaryLabel.codeTextList st.bit_width st.value)

instance (st : BinaryLabel) : Decidable (rendered st) := by
  unfold rendered; infer_instance

/-- Replace the dynamic class name of a state; `ByteLabel` (lines
305-310) adds and overrides nothing, so a `ByteLabel` is a
`BinaryLabel` state whose `className` is `"ByteLabel"`. -/
def relabel (st : BinaryLabel) (c : String) : BinaryLabel :=
  { st with className := c }

/-- A Python exception class, as far as the callback adapter can tell:
`TypeError` or anything else. -/
inductive PyErr where
  | typeError
  | otherError
  deriving DecidableEq, Repr

/-- Result of running a callback body: a returned value or a raised
exception. -/
inductive CallResult where
  | ok : PyVal → CallResult
  | exn : PyErr → CallResult
  deriving DecidableEq, Repr

/-- A user callback: its declared parameter count and its body, which
receives the argument list and may raise. -/
structure Callback where
  arity : Nat
  body : List PyVal → CallResult

/-- Outcome of a Python call, keeping the reason distinguishable: the
callee was never entered (`arityMismatch`, surfaced in Python as a
`TypeError`), or its body ran and returned or raised. -/
inductive CallOutcome where
  | ok : PyVal → CallOutcome
  | arityMismatch : CallOutcome
  | bodyExn : PyErr → CallOutcome
  deriving DecidableEq, Repr

/-- Call a Python callable with an argument list: an arity mismatch
raises `TypeError` before the body runs; otherwise the body runs. -/
def callPy (cb : Callback) (args : List PyVal) : CallOutcome :=
  if args.length = cb.arity then
    match cb.body args with
    | CallResult.ok v => CallOutcome.ok v
    | CallResult.exn e => CallOutcome.bodyExn e
  else CallOutcome.arityMismatch

/-- Whether an outcome surfaces as a `TypeError` in Python: both an
arity mismatch and a `TypeError` raised inside the body do. -/
def raisesTypeError : CallOutcome → Bool
  | CallOutcome.arityMismatch => true
  | CallOutcome.bodyExn PyErr.typeError => true
  | _ => false

/-- `internal_callback` of `SmartWidget.add_callback` (lines 25-31):
`try: callback() except TypeError: callback(self.get())`.  Returns
whether the one-argument retry ran, and the outcome of the last call
that ran (the `except` clause catches exactly `TypeError`). -/
def internal_callback (cb : Callback) (current : PyVal) : Bool × CallOutcome :=
  let first := callPy cb []
  if raisesTypeError first then (true, callPy cb [current]) else (false, first)

/-- The value stored in the `SmartOptionMenu` variable at construction
(line 77): `initial_value if initial_value else options[0]`.  `none`
models Python `None`; the empty string and `None` are both falsy, in
which case `options[0]` is read (`Option.none` result models the
`IndexError` on an empty list). -/
def somInitialValue (options : List String) (initial_value : Option String) : Option String :=
  match initial_value with
  | some s => if s = "" then options.head? else some s
  | none => options.head?

/-- The tkinter variable type chosen by `SmartSpinBox.__init__`
(lines 119-126). -/
inductive SpinVarType where
  | strVar
  | intVar
  | doubleVar
  deriving DecidableEq, Repr

/-- `SmartSpinBox.__init__` entry-type dispatch (lines 119-126): `none`
models the raised `ValueError` (the spec's `InvalidConfiguration`). -/
def spinBoxVarFor (entry_type : String) : Option SpinVarType :=
  if entry_type = "str" then some SpinVarType.strVar
  else if entry_type = "int" then some SpinVarType.intVar
  else if entry_type = "float" then some SpinVarType.doubleVar
  else none

/-- Sample state: `BinaryLabel(root)` with all defaults (value 0,
prefix "", bit_width 8, truncation_warning True). -/
def sampleState : BinaryLabel :=
  (BinaryLabel.construct "BinaryLabel" 0 "" 8 true).1

/-- Sample state: `BinaryLabel(root, 255)`. -/
def sampleState255 : BinaryLabel :=
  (BinaryLabel.construct "BinaryLabel" 255 "" 8 true).1

/-- Sample state: `BinaryLabel(root, 5)`. -/
def sampleState5 : BinaryLabel :=
  (BinaryLabel.construct "BinaryLabel" 5 "" 8 true).1

/-- Sample state: default construction followed by `set(256)`. -/
def sampleState256 : BinaryLabel :=
  (BinaryLabel.set sampleState 256).1

/-- A zero-parameter callback whose body itself raises `TypeError`
(e.g. it calls some other function with the wrong arity). -/
def cbTypeErrorBody : Callback :=
  { arity := 0, body := fun _ => CallResult.exn PyErr.typeError }

/-- A one-parameter callback that returns its argument. -/
def cbArityOne : Callback :=
  { arity := 1, body := fun args => CallResult.ok (args.headD PyVal.pyNone) }

theorem natBinCore_mem (fuel : Nat) :
    ∀ (n : Nat) (acc : List Char) (c : Char), c ∈ natBinCore fuel n acc →
      c ∈ acc ∨ c = '0' ∨ c = '1' := by
  induction fuel with
  | zero => intro n acc c h; exact Or.inl h
  | succ f ih =>
    intro n acc c h
    simp only [natBinCore] at h
    by_cases hn : n = 0
    · rw [if_pos hn] at h; exact Or.inl h
    · rw [if_neg hn] at h
      rcases ih _ _ _ h with h1 | h2
      · rcases List.mem_cons.1 h1 with hc | hc
        · subst hc
          by_cases hm : n % 2 = 1
          · right; right; rw [if_pos hm]
          · right; left; rw [if_neg hm]
        · exact Or.inl hc
      · exact Or.inr h2

theorem natBinCore_suffix (fuel : Nat) :
    ∀ (n : Nat) (acc : List Char), ∃ pre, natBinCore fuel n acc = pre ++ acc := by
  induction fuel with
  | zero => intro n acc; exact ⟨[], rfl⟩
  | succ f ih =>
    intro n acc
    simp only [natBinCore]
    by_cases hn : n = 0
    · rw [if_pos hn]; exact ⟨[], rfl⟩
    · rw [if_neg hn]
      obtain ⟨pre, hp⟩ := ih (n / 2) ((if n % 2 = 1 then '1' else '0') :: acc)
      refine ⟨pre ++ [if n % 2 = 1 then '1' else '0'], ?_⟩
      rw [hp]; simp

theorem natBin_mem (n : Nat) (c : Char) (h : c ∈ natBin n) : c = '0' ∨ c = '1' := by
  unfold natBin at h
  by_cases hn : n = 0
  · rw [if_pos hn] at h; simp at h; exact Or.inl h
  · rw [if_neg hn] at h
    rcases natBinCore_mem n n [] c h with h1 | h2
    · simp at h1
    · exact h2

theorem natBin_ne_nil (n : Nat) : natBin n ≠ [] := by
  unfold natBin
  by_cases hn : n = 0
  · rw [if_pos hn]; simp
  · rw [if_neg hn]
    obtain ⟨m, rfl⟩ := Nat.exists_eq_succ_of_ne_zero hn
    simp only [natBinCore]
    rw [if_neg hn]
    obtain ⟨pre, hp⟩ := natBinCore_suffix m ((m + 1) / 2) [if (m + 1) % 2 = 1 then '1' else '0']
    rw [hp]
    simp

theorem pyZfill_of_digits (l : List Char) (w : Int) (c : Char) (rest : List Char)
    (hl : l = c :: rest) (h01 : c = '0' ∨ c = '1') :
    pyZfill l w = List.replicate (w.toNat - l.length) '0' ++ l := by
  subst hl
  have hns : ¬ (c = '+' ∨ c = '-') := by
    rcases h01 with h | h <;> subst h <;> decide
  simp only [pyZfill]
  rw [if_neg hns]

theorem binTail_ofNat (n : Nat) : pySliceFrom (pyBinList (n : Int)) 2 = natBin n := by
  have hb : pyBinList (n : Int) = '0' :: 'b' :: natBin n := by
    unfold pyBinList
    rw [if_neg (by exact Int.not_lt.2 (Int.natCast_nonneg n))]
    simp
  rw [hb]
  unfold pySliceFrom
  rw [if_neg (by decide : ¬ (2 : Int) < 0)]
  rfl

theorem codeTextList_eq_spec (bw : Int) (v : Int) (hbw : 1 ≤ bw) (hv : 0 ≤ v) :
    BinaryLabel.codeTextList bw v = specTruncList bw.toNat v.toNat := by
  obtain ⟨n, rfl⟩ := Int.eq_ofNat_of_zero_le hv
  unfold BinaryLabel.codeTextList specTruncList
  rw [Int.toNat_natCast, binTail_ofNat]
  cases hcase : natBin n with
  | nil => exact absurd hcase (natBin_ne_nil n)
  | cons c rest =>
    rw [pyZfill_of_digits (c :: rest) bw c rest rfl
      (natBin_mem n c (by rw [hcase]; exact List.mem_cons_self c rest))]
    unfold pySliceFrom
    rw [if_pos (by omega : -bw < 0)]
    have habs : (-bw).natAbs = bw.toNat := by omega
    rw [habs]

theorem intXor_cancel (v m : Int) : intXor (intXor v m) m = v := by
  cases v <;> cases m <;> simp [intXor, Nat.xor_cancel_right]

theorem rendered_text_update (st : BinaryLabel) : rendered (BinaryLabel.text_update st) := rfl

theorem set_inv (st : BinaryLabel) (v : Int) :
    (st.set v).1.pfx = st.pfx ∧ (st.set v).1.bit_width = st.bit_width ∧
      rendered (st.set v).1 :=
  ⟨rfl, rfl, rendered_text_update _⟩

theorem toggle_bit_inv (st s : BinaryLabel) (p : Int) (h : st.toggle_bit p = some s) :
    s.pfx = st.pfx ∧ s.bit_width = st.bit_width ∧ rendered s := by
  unfold BinaryLabel.toggle_bit at h
  rcases Option.map_eq_some'.1 h with ⟨m, _, he⟩
  rw [← he]
  exact ⟨rfl, rfl, rendered_text_update _⟩

theorem set_bit_inv (st s : BinaryLabel) (p : Int) (h : st.set_bit p = some s) :
    s.pfx = st.pfx ∧ s.bit_width = st.bit_width ∧ rendered s := by
  unfold BinaryLabel.set_bit at h
  rcases Option.map_eq_some'.1 h with ⟨m, _, he⟩
  rw [← he]
  exact ⟨rfl, rfl, rendered_text_update _⟩

theorem clear_bit_inv (st s : BinaryLabel) (p : Int) (h : st.clear_bit p = some s) :
    s.pfx = st.pfx ∧ s.bit_width = st.bit_width ∧ rendered s := by
  unfold BinaryLabel.clear_bit at h
  rcases Option.map_eq_some'.1 h with ⟨m, _, he⟩
  rw [← he]
  exact ⟨rfl, rfl, rendered_text_update _⟩

theorem step_inv (op : Op) (st s : BinaryLabel) (w : List String)
    (h : step st op = some (s, w)) :
    s.pfx = st.pfx ∧ s.bit_width = st.bit_width ∧ (rendered st → rendered s) := by
  cases op with
  | opSet v =>
    simp only [step] at h
    injection h with h1
    have hfst : (st.set v).1 = s := congrArg Prod.fst h1
    rw [← hfst]
    exact ⟨(set_inv st v).1, (set_inv st v).2.1, fun _ => (set_inv st v).2.2⟩
  | opGetBit p =>
    simp only [step] at h
    rcases Option.map_eq_some'.1 h with ⟨x, _, he⟩
    injection he with e1 e2
    rw [← e1]
    exact ⟨rfl, rfl, id⟩
  | opToggleBit p =>
    simp only [step] at h
    rcases Option.map_eq_some'.1 h with ⟨x, hx, he⟩
    injection he with e1 e2
    rw [← e1]
    obtain ⟨a, b, c⟩ := toggle_bit_inv st x p hx
    exact ⟨a, b, fun _ => c⟩
  | opSetBit p =>
    simp only [step] at h
    rcases Option.map_eq_some'.1 h with ⟨x, hx, he⟩
    injection he with e1 e2
    rw [← e1]
    obtain ⟨a, b, c⟩ := set_bit_inv st x p hx
    exact ⟨a, b, fun _ => c⟩
  | opClearBit p =>
    simp only [step] at h
    rcases Option.map_eq_some'.1 h with ⟨x, hx, he⟩
    injection he with e1 e2
    rw [← e1]
    obtain ⟨a, b, c⟩ := clear_bit_inv st x p hx
    exact ⟨a, b, fun _ => c⟩
  | opGetMsb =>
    simp only [step] at h
    rcases Option.map_eq_some'.1 h with ⟨x, _, he⟩
    injection he with e1 e2
    rw [← e1]
    exact ⟨rfl, rfl, id⟩
  | opToggleMsb =>
    simp only [step] at h
    rcases Option.map_eq_some'.1 h with ⟨x, hx, he⟩
    injection he with e1 e2
    rw [← e1]
    obtain ⟨a, b, c⟩ := toggle_bit_inv st x (st.bit_width - 1) hx
    exact ⟨a, b, fun _ => c⟩
  | opGetLsb =>
    simp only [step] at h
    rcases Option.map_eq_some'.1 h with ⟨x, _, he⟩
    injection he with e1 e2
    rw [← e1]
    exact ⟨rfl, rfl, id⟩
  | opSetMsb =>
    simp only [step] at h
    rcases Option.map_eq_some'.1 h with ⟨x, hx, he⟩
    injection he with e1 e2
    rw [← e1]
    obtain ⟨a, b, c⟩ := set_bit_inv st x (st.bit_width - 1) hx
    exact ⟨a, b, fun _ => c⟩
  | opClearMsb =>
    simp only [step] at h
    rcases Option.map_eq_some'.1 h with ⟨x, hx, he⟩
    injection he with e1 e2
    rw [← e1]
    obtain ⟨a, b, c⟩ := clear_bit_inv st x (st.bit_width - 1) hx
    exact ⟨a, b, fun _ => c⟩
  | opToggleLsb =>
    simp only [step] at h
    rcases Option.map_eq_some'.1 h with ⟨x, hx, he⟩
    injection he with e1 e2
    rw [← e1]
    obtain ⟨a, b, c⟩ := toggle_bit_inv st x 0 hx
    exact ⟨a, b, fun _ => c⟩
  | opSetLsb =>
    simp only [step] at h
    rcases Option.map_eq_some'.1 h with ⟨x, hx, he⟩
    injection he with e1 e2
    rw [← e1]
    obtain ⟨a, b, c⟩ := set_bit_inv st x 0 hx
    exact ⟨a, b, fun _ => c⟩
  | opClearLsb =>
    simp only [step] at h
    rcases Option.map_eq_some'.1 h with ⟨x, hx, he⟩
    injection he with e1 e2
    rw [← e1]
    obtain ⟨a, b, c⟩ := clear_bit_inv st x 0 hx
    exact ⟨a, b, fun _ => c⟩

theorem runOps_inv (ops : List Op) :
    ∀ (st s : BinaryLabel), runOps st ops = some s → rendered st →
      rendered s ∧ s.pfx = st.pfx ∧ s.bit_width = st.bit_width := by
  induction ops with
  | nil =>
    intro st s h hr
    simp only [runOps] at h
    injection h with h1
    rw [← h1]
    exact ⟨hr, rfl, rfl⟩
  | cons op rest ih =>
    intro st s h hr
    simp only [runOps] at h
    cases hstep : step st op with
    | none => rw [hstep] at h; exact Option.noConfusion h
    | some pr =>
      obtain ⟨a, b⟩ := pr
      rw [hstep] at h
      obtain ⟨hp, hb, hrend⟩ := step_inv op st a b hstep
      obtain ⟨r1, r2, r3⟩ := ih a s h (hrend hr)
      exact ⟨r1, r2.trans hp, r3.trans hb⟩

/-- C1: for every `bit_width ≥ 1`, after construction and any sequence of
`set`/bit operations, whenever the stored value is non-negative the
displayed text equals the prefix followed by the binary digit string of
the value, left-padded with `'0'` to at least `bit_width` characters and
truncated to the rightmost `bit_width` characters (`specRender`). -/
theorem C1_rendering_invariant (cn : String) (v : Int) (pfx : String) (bw : Int) (tw : Bool)
    (ops : List Op) (st : BinaryLabel) (hbw : 1 ≤ bw)
    (hrun : runOps (BinaryLabel.construct cn v pfx bw tw).1 ops = some st)
    (hv : 0 ≤ st.value) :
    st.text = specRender pfx bw.toNat st.value.toNat := by
  obtain ⟨r1, r2, r3⟩ := runOps_inv ops _ st hrun (rendered_text_update _)
  have hpfx : st.pfx = pfx := r2
  have hb : st.bit_width = bw := r3
  unfold rendered at r1
  rw [r1, hpfx, hb, codeTextList_eq_spec bw st.value hbw hv]
  rfl

/-- Witness for C1: constructing with the defaults and calling
`set(256)` with `bit_width = 8` renders exactly `"00000000"`, matching
the spec-side rendering. -/
theorem C1_rendering_witness :
    sampleState256.text = specRender "" (8 : Int).toNat sampleState256.value.toNat ∧
      sampleState256.text = "00000000" := by
  constructor
  · exact C1_rendering_invariant "BinaryLabel" 0 "" 8 true [Op.opSet 256] sampleState256
      (by decide) (by decide) (by decide)
  · decide

/-- C2 (amended): for every non-negative position, including positions
at or above `bit_width`, none of the four bit operations raises.  (As
stated the claim also covered negative positions, which is refuted by
`C2_bit_ops_raise_on_negative_position`.) -/
theorem C2_bit_ops_total_on_nonneg (st : BinaryLabel) (p : Int) (hp : 0 ≤ p) :
    (st.get_bit p).isSome ∧ (st.toggle_bit p).isSome ∧ (st.set_bit p).isSome ∧
      (st.clear_bit p).isSome := by
  have hs : pyShl 1 p = some (1 * 2 ^ p.toNat) := by
    unfold pyShl; rw [if_neg (Int.not_lt.2 hp)]
  refine ⟨?_, ?_, ?_, ?_⟩ <;>
    simp [BinaryLabel.get_bit, BinaryLabel.toggle_bit, BinaryLabel.set_bit,
      BinaryLabel.clear_bit, hs]

/-- Witness for C2: at position 100, far above the default bit width of
8, all four bit operations succeed. -/
theorem C2_bit_ops_witness :
    (sampleState.get_bit 100).isSome ∧ (sampleState.toggle_bit 100).isSome ∧
      (sampleState.set_bit 100).isSome ∧ (sampleState.clear_bit 100).isSome :=
  C2_bit_ops_total_on_nonneg sampleState 100 (by decide)

/-- Counterexample to C2 as stated: at position `-1` every bit operation
raises (Python `1 << -1` raises `ValueError: negative shift count`,
modelled as `none`). -/
theorem C2_bit_ops_raise_on_negative_position :
    sampleState.get_bit (-1) = none ∧ sampleState.toggle_bit (-1) = none ∧
      sampleState.set_bit (-1) = none ∧ sampleState.clear_bit (-1) = none := by
  decide

/-- C3 (amended): the toggle/set/clear MSB and LSB wrappers are fully
equivalent to the bit-position operations at `bit_width - 1` and `0`;
`get_msb` and `get_lsb` perform the same bit test (same exception
behaviour, no state change) but discard the result and return `None`
because their bodies have no `return` statement. -/
theorem C3_wrapper_equivalence (st : BinaryLabel) :
    st.toggle_msb = st.toggle_bit (st.bit_width - 1) ∧
      st.set_msb = st.set_bit (st.bit_width - 1) ∧
      st.clear_msb = st.clear_bit (st.bit_width - 1) ∧
      st.toggle_lsb = st.toggle_bit 0 ∧
      st.set_lsb = st.set_bit 0 ∧
      st.clear_lsb = st.clear_bit 0 ∧
      st.get_msb = (st.get_bit (st.bit_width - 1)).map (fun _ => PyVal.pyNone) ∧
      st.get_lsb = (st.get_bit 0).map (fun _ => PyVal.pyNone) :=
  ⟨rfl, rfl, rfl, rfl, rfl, rfl, rfl, rfl⟩

/-- Counterexample to C3 as stated: on `BinaryLabel(root, 255)`,
`get_bit(bit_width - 1)` returns the masked bit value 128 while
`get_msb()` returns `None`, so the wrapper does not have the same
return value. -/
theorem C3_get_wrappers_return_none :
    sampleState255.get_msb = some PyVal.pyNone ∧
      sampleState255.get_bit (sampleState255.bit_width - 1) = some (PyVal.pyInt 128) ∧
      ¬ sampleState255.get_msb = sampleState255.get_bit (sampleState255.bit_width - 1) := by
  decide

/-- C4 (amended): the adapter retries with the current value as one
argument exactly when the zero-argument invocation raises `TypeError` —
whether from an arity mismatch or from a `TypeError` raised inside the
callback body; otherwise the outcome of the first call stands. -/
theorem C4_retry_iff_type_error (cb : Callback) (cur : PyVal) :
    ((internal_callback cb cur).1 = true ↔ raisesTypeError (callPy cb []) = true) ∧
      ((internal_callback cb cur).1 = true →
        (internal_callback cb cur).2 = callPy cb [cur]) ∧
      ((internal_callback cb cur).1 = false →
        (internal_callback cb cur).2 = callPy cb []) := by
  simp only [internal_callback]
  by_cases h : raisesTypeError (callPy cb []) = true <;> simp [h]

/-- Witness for C4: a one-parameter callback mismatches on the
zero-argument attempt, so the adapter retries with the current value. -/
theorem C4_retry_witness :
    (internal_callback cbArityOne (PyVal.pyInt 7)).1 = true ∧
      (internal_callback cbArityOne (PyVal.pyInt 7)).2 = callPy cbArityOne [PyVal.pyInt 7] := by
  have h := C4_retry_iff_type_error cbArityOne (PyVal.pyInt 7)
  have h1 : (internal_callback cbArityOne (PyVal.pyInt 7)).1 = true := (h.1).2 (by decide)
  exact ⟨h1, h.2.1 h1⟩

/-- Counterexample to C4 as stated: a zero-parameter callback whose body
raises `TypeError` is retried although the zero-argument invocation did
not fail due to arity mismatch. -/
theorem C4_retry_on_internal_type_error :
    ¬ (((internal_callback cbTypeErrorBody (PyVal.pyInt 5)).1 = true) ↔
        callPy cbTypeErrorBody [] = CallOutcome.arityMismatch) := by
  decide

/-- C6: after `set(v)` (or construction with `v`), `get()` returns
exactly the stored integer `v`, for every integer `v`, including values
whose binary length exceeds `bit_width`. -/
theorem C6_get_returns_set_value (st : BinaryLabel) (v : Int) (cn pfx : String)
    (bw : Int) (tw : Bool) :
    ((st.set v).1).get = v ∧ ((BinaryLabel.construct cn v pfx bw tw).1).get = v :=
  ⟨rfl, rfl⟩

theorem check_width_length (st : BinaryLabel) (n : Nat) (hv : st.value = (n : Int)) :
    (BinaryLabel.check_width st).length =
      if st.truncation_warning ∧ st.bit_width < ((natBin n).length : Int) then 1 else 0 := by
  unfold BinaryLabel.check_width
  rw [hv, binTail_ofNat]
  split <;> rfl

/-- C5: with a non-negative new value, `set` and construction emit
exactly one truncation warning when warnings are enabled and the binary
digit length of the value exceeds `bit_width`, and none otherwise; the
warning never alters the stored value; `toggle_bit`, `set_bit` and
`clear_bit` never emit a warning. -/
theorem C5_truncation_warning_iff (st : BinaryLabel) (v : Int) (hv : 0 ≤ v) :
    ((st.set v).2.length =
        if st.truncation_warning ∧ st.bit_width < ((natBin v.toNat).length : Int)
        then 1 else 0) ∧
      (st.set v).1.value = v ∧
      (∀ (cn pfx : String) (bw : Int) (tw : Bool),
        (BinaryLabel.construct cn v pfx bw tw).2.length =
            (if tw ∧ bw < ((natBin v.toNat).length : Int) then 1 else 0) ∧
          (BinaryLabel.construct cn v pfx bw tw).1.value = v) ∧
      (∀ (p : Int) (s : BinaryLabel × List String),
        (step st (Op.opToggleBit p) = some s → s.2 = []) ∧
          (step st (Op.opSetBit p) = some s → s.2 = []) ∧
          (step st (Op.opClearBit p) = some s → s.2 = [])) := by
  obtain ⟨n, rfl⟩ := Int.eq_ofNat_of_zero_le hv
  rw [Int.toNat_natCast]
  refine ⟨check_width_length _ n rfl, rfl, fun cn pfx bw tw => ⟨check_width_length _ n rfl, rfl⟩, ?_⟩
  intro p s
  refine ⟨?_, ?_, ?_⟩ <;> intro h <;> simp only [step] at h <;>
    (rcases Option.map_eq_some'.1 h with ⟨x, _, he⟩; rw [← he])

/-- Witness for C5: with the default state (bit width 8, warnings on),
`set(256)` emits exactly one warning and `set(255)` emits none. -/
theorem C5_truncation_warning_witness :
    (BinaryLabel.set sampleState 256).2.length = 1 ∧
      (BinaryLabel.set sampleState 255).2.length = 0 := by
  constructor
  · have h := C5_truncation_warning_iff sampleState 256 (by decide)
    rw [h.1]; decide
  · have h := C5_truncation_warning_iff sampleState 255 (by decide)
    rw [h.1]; decide

/-- C7 (amended): constructing a `SmartOptionMenu` with no initial value
or with the empty string selects the first option; a supplied non-empty
`initial_value` is stored exactly.  (As stated the claim also promised
this for the empty string, refuted by `C7_empty_initial_falls_back`.) -/
theorem C7_initial_value_selection (options : List String) (s : String)
    (hne : options ≠ []) (hs : s ≠ "") :
    somInitialValue options none = some (options.head hne) ∧
      somInitialValue options (some s) = some s ∧
      somInitialValue options (some "") = some (options.head hne) := by
  cases options with
  | nil => exact absurd rfl hne
  | cons o os =>
    refine ⟨rfl, ?_, rfl⟩
    simp only [somInitialValue]
    rw [if_neg hs]

/-- Witness for C7: with options `["one", "two"]`, omitting the initial
value or passing `""` selects `"one"`, and `"custom"` is stored
exactly. -/
theorem C7_initial_value_witness :
    somInitialValue ["one", "two"] none = some "one" ∧
      somInitialValue ["one", "two"] (some "custom") = some "custom" ∧
      somInitialValue ["one", "two"] (some "") = some "one" := by
  have h := C7_initial_value_selection ["one", "two"] "custom" (by decide) (by decide)
  exact ⟨h.1, h.2.1, h.2.2⟩

/-- Counterexample to C7 as stated: the supplied initial value `""` is
falsy in Python, so the variable is set to the first option `"one"`
rather than to the supplied string. -/
theorem C7_empty_initial_falls_back :
    somInitialValue ["one", "two"] (some "") = some "one" ∧
      ¬ somInitialValue ["one", "two"] (some "") = some "" := by
  decide

/-- C8: `SmartSpinBox` construction raises (the spec's
`InvalidConfiguration`, a `ValueError` in the source) exactly when
`entry_type` is none of `"str"`, `"int"`, `"float"`; in particular
`"bool"` fails and the three supported values succeed. -/
theorem C8_entry_type_validation (et : String) :
    (spinBoxVarFor et = none ↔ ¬ (et = "str" ∨ et = "int" ∨ et = "float")) ∧
      spinBoxVarFor "bool" = none ∧
      (spinBoxVarFor "str").isSome = true ∧
      (spinBoxVarFor "int").isSome = true ∧
      (spinBoxVarFor "float").isSome = true := by
  refine ⟨?_, by decide, by decide, by decide, by decide⟩
  by_cases h1 : et = "str" <;> by_cases h2 : et = "int" <;> by_cases h3 : et = "float" <;>
    simp_all [spinBoxVarFor]

/-- C9: for a rendered state and any position `0 ≤ p < bit_width`,
toggling the same bit twice returns the widget (value and displayed
text) to exactly its original state. -/
theorem C9_toggle_involution (st : BinaryLabel) (p : Int) (hr : rendered st)
    (h0 : 0 ≤ p) (hlt : p < st.bit_width) :
    (st.toggle_bit p).bind (fun s => s.toggle_bit p) = some st := by
  have hs : pyShl 1 p = some (1 * 2 ^ p.toNat) := by
    unfold pyShl; rw [if_neg (Int.not_lt.2 h0)]
  obtain ⟨cn, v, px, bw, tw, tx⟩ := st
  have hr2 : tx = px ++ String.mk (BinaryLabel.codeTextList bw v) := hr
  simp only [BinaryLabel.toggle_bit, BinaryLabel.text_update, hs, Option.map_some',
    Option.some_bind]
  rw [intXor_cancel]
  rw [hr2]

/-- Witness for C9: on `BinaryLabel(root, 5)` toggling bit 2 twice
returns exactly the original state. -/
theorem C9_toggle_involution_witness :
    (sampleState5.toggle_bit 2).bind (fun s => s.toggle_bit 2) = some sampleState5 :=
  C9_toggle_involution sampleState5 2 (by decide) (by decide) (by decide)

theorem check_width_relabel (st : BinaryLabel) (c : String) :
    BinaryLabel.check_width (relabel st c) =
      (BinaryLabel.check_width st).map (fun _ => c ++ warnSuffix) := by
  obtain ⟨cn, v, px, bw, tw, tx⟩ := st
  simp only [BinaryLabel.check_width, relabel]
  split <;> rfl

/-- C10 (amended): `ByteLabel` is behaviourally identical to
`BinaryLabel` in state, rendering, return values, exception behaviour
and warning conditions; the only difference is that truncation warning
messages begin with the dynamic class name `"ByteLabel"` instead of
`"BinaryLabel"` (refuting exact equality of results, see
`C10_warning_text_differs`). -/
theorem C10_byte_label_equiv (v : Int) (pfx : String) (bw : Int) (tw : Bool)
    (st : BinaryLabel) (c : String) (p : Int) :
    (BinaryLabel.construct "ByteLabel" v pfx bw tw).1 =
        relabel (BinaryLabel.construct "BinaryLabel" v pfx bw tw).1 "ByteLabel" ∧
      (BinaryLabel.construct "ByteLabel" v pfx bw tw).2 =
        (BinaryLabel.construct "BinaryLabel" v pfx bw tw).2.map
          (fun _ => "ByteLabel" ++ warnSuffix) ∧
      (relabel st c).get = st.get ∧
      (relabel st c).text = st.text ∧
      (relabel st c).get_bit p = st.get_bit p ∧
      ((relabel st c).set v).1 = relabel (st.set v).1 c ∧
      ((relabel st c).set v).2 = (st.set v).2.map (fun _ => c ++ warnSuffix) ∧
      (relabel st c).toggle_bit p = (st.toggle_bit p).map (fun s => relabel s c) ∧
      (relabel st c).set_bit p = (st.set_bit p).map (fun s => relabel s c) ∧
      (relabel st c).clear_bit p = (st.clear_bit p).map (fun s => relabel s c) := by
  refine ⟨rfl, ?_, rfl, rfl, rfl, rfl, ?_, ?_, ?_, ?_⟩
  · exact check_width_relabel
      { className := "BinaryLabel", value := v, pfx := pfx, bit_width := bw,
        truncation_warning := tw, text := "" } "ByteLabel"
  · exact check_width_relabel { st with value := v } c
  · simp only [BinaryLabel.toggle_bit]
    cases hpm : pyShl 1 p <;> rfl
  · simp only [BinaryLabel.set_bit]
    cases hpm : pyShl 1 p <;> rfl
  · simp only [BinaryLabel.clear_bit]
    cases hpm : pyShl 1 p <;> rfl

/-- Counterexample to C10 as stated: constructing with `value = 256`,
`bit_width = 8`, warnings on, the truncation warning message names the
class, so the `ByteLabel` result is not exactly the `BinaryLabel`
result. -/
theorem C10_warning_text_differs :
    (BinaryLabel.construct "ByteLabel" 256 "" 8 true).2 =
        ["ByteLabel: Displayed value is truncated on left side due to insufficient bit width."] ∧
      (BinaryLabel.construct "BinaryLabel" 256 "" 8 true).2 =
        ["BinaryLabel: Displayed value is truncated on left side due to insufficient bit width."] ∧
      ¬ (BinaryLabel.construct "ByteLabel" 256 "" 8 true).2 =
          (BinaryLabel.construct "BinaryLabel" 256 "" 8 true).2 := by
  decide

end TkTools
